import Mathlib

/-!
Verification of the Lunar Lander game (src/main.cpp) against its
natural-language specification.

Real-number quantities that the C++ source stores in `float` are embedded
as exact rationals (`ℚ`): every arithmetic operation the claims exercise
(addition, subtraction, multiplication, comparison, floor) is exact here,
idealising the float rounding of the source.

The repository ships only `main.cpp`; the `Entity` class (`Entity.h` /
`Entity.cpp`) is declared and called but its implementation file is not in
`src/`.  Definitions whose doc comment starts with `Modelled from the spec:`
reconstruct those missing member functions faithfully from the words of
`spec.md` (§3 data model, §4.1 kinematics and collision).  Everything else
is translated directly from `src/main.cpp`.
-/

namespace LunarLander

/-- `#define FIXED_TIMESTEP 0.0166666f` (main.cpp line 5), as an exact rational. -/
def FIXED_TIMESTEP : ℚ := 0.0166666

/-- `#define ACC_OF_GRAVITY -1.62f` (main.cpp line 6). -/
def ACC_OF_GRAVITY : ℚ := -1.62

/-- `#define PLATFORM_COUNT 9` (main.cpp line 7). -/
def PLATFORM_COUNT : ℕ := 9

/-- `const float MILLISECONDS_IN_SECOND = 1000.0` (main.cpp line 49). -/
def MILLISECONDS_IN_SECOND : ℚ := 1000

/-- A `glm::vec3` with rational components. -/
structure Vec3 where
  x : ℚ
  y : ℚ
  z : ℚ
deriving DecidableEq, Repr

/-- The zero vector `glm::vec3(0.0f)`. -/
def Vec3.zero : Vec3 := ⟨0, 0, 0⟩

/-- Componentwise vector addition. -/
def Vec3.add (a b : Vec3) : Vec3 := ⟨a.x + b.x, a.y + b.y, a.z + b.z⟩

/-- Scalar multiplication of a vector. -/
def Vec3.scale (c : ℚ) (a : Vec3) : Vec3 := ⟨c * a.x, c * a.y, c * a.z⟩

/-- Squared Euclidean norm.  The source tests `glm::length(m) > 1.0f`;
since lengths are non-negative this is equivalent to `sqNorm m > 1`,
which avoids the irrational square root. -/
def Vec3.sqNorm (a : Vec3) : ℚ := a.x * a.x + a.y * a.y + a.z * a.z

/-- The `EntityType` variant tag (PLAYER, WIN_PLATFORM, DEATH_PLATFORM),
declared in the missing `Entity.h` and used throughout `main.cpp`. -/
inductive EntityType where
  | PLAYER
  | WIN_PLATFORM
  | DEATH_PLATFORM
deriving DecidableEq, Repr

/-- Modelled from the spec: the `Entity` data unit (§3 data model) — transform,
kinematics (position, movement intent, velocity, acceleration, speed, drag),
collision extents (width/height), type tag, booster state, and the animation
bookkeeping the spec describes (current frame index, elapsed time in the
current frame, length of the active frame sequence, fixed per-frame duration).
The booster LOW/HIGH frame sequences are inert dead data per spec §9 and are
not modelled beyond the active sequence length.  `Entity.h` is not in `src/`. -/
structure Entity where
  position : Vec3
  movement : Vec3
  velocity : Vec3
  acceleration : Vec3
  speed : ℚ
  drag : ℚ
  boosting_power : ℚ
  width : ℚ
  height : ℚ
  entity_type : EntityType
  booster_active : Bool
  animation_index : ℕ
  animation_time : ℚ
  animation_frames : ℕ
  frame_duration : ℚ
  texture_id : ℕ
deriving DecidableEq, Repr

/-- Modelled from the spec: `Entity::move_left()` — the left key "sets lateral
movement components" (§4.2); lateral-left intent is the x-component −1 of the
movement vector (C10 calls this value unit-left). -/
def move_left (e : Entity) : Entity :=
  { e with movement := ⟨-1, e.movement.y, e.movement.z⟩ }

/-- Modelled from the spec: `Entity::move_right()`, symmetric to `move_left`. -/
def move_right (e : Entity) : Entity :=
  { e with movement := ⟨1, e.movement.y, e.movement.z⟩ }

/-- Modelled from the spec: the axis-aligned bounding-box overlap test of
§4.1 — "position ± half width/height" on each axis. -/
def check_collision (a b : Entity) : Bool :=
  decide (|a.position.x - b.position.x| < (a.width + b.width) / 2) &&
  decide (|a.position.y - b.position.y| < (a.height + b.height) / 2)

/-- Modelled from the spec: §4.1 kinematics step 5 — animation elapsed time
accumulates by `dt`; when it exceeds the fixed per-frame duration, the frame
index advances modulo the active sequence length and the elapsed time resets. -/
def animate (dt : ℚ) (e : Entity) : Entity :=
  let t := e.animation_time + dt
  if e.frame_duration < t then
    { e with animation_index := (e.animation_index + 1) % e.animation_frames,
             animation_time := 0 }
  else
    { e with animation_time := t }

/-- Modelled from the spec: §4.1 kinematics steps 1–5 for the PLAYER variant.
The lateral velocity component is the movement intent scaled by speed (§3:
velocity is the "movement" vector scaled by speed); then
(1) velocity accumulates acceleration `v += a*h`,
(2) if the booster is active a fixed upward impulse is added to velocity,
(3) velocity is attenuated multiplicatively by the drag coefficient,
(4) position integrates velocity scaled by speed `p += v*speed*h`,
(5) animation advances (see `animate`). -/
def integrate_player (dt : ℚ) (e : Entity) : Entity :=
  let v0 : Vec3 := ⟨e.movement.x * e.speed, e.velocity.y, e.velocity.z⟩
  let v1 := v0.add (Vec3.scale dt e.acceleration)
  let v2 := if e.booster_active then ⟨v1.x, v1.y + e.boosting_power, v1.z⟩ else v1
  let v3 := Vec3.scale e.drag v2
  let p := e.position.add (Vec3.scale (e.speed * dt) v3)
  animate dt { e with velocity := v3, position := p }

/-- Modelled from the spec: §4.1 collision resolution — platforms are tested
in array order and the FIRST overlapping platform determines the outcome
(first-match-wins): a WIN_PLATFORM sets `won`, a DEATH_PLATFORM sets `loss`,
and no later platform is consulted.  Flags are only ever set to true, never
cleared.  An overlapping entity of the PLAYER variant cannot occur in the
platform array; as the first match it determines the outcome "no flag". -/
def resolveCollisions (player : Entity) : List Entity → Bool → Bool → Bool × Bool
  | [], won, loss => (won, loss)
  | p :: rest, won, loss =>
      if check_collision player p then
        match p.entity_type with
        | EntityType.WIN_PLATFORM => (true, loss)
        | EntityType.DEATH_PLATFORM => (won, true)
        | EntityType.PLAYER => (won, loss)
      else
        resolveCollisions player rest won loss

/-- Modelled from the spec: `Entity::update(delta_time, platforms, count,
won, loss)` (§4.1) — only the PLAYER variant performs integration and
collision checks; platform-variant entities no-op ("a platform's own update
call is effectively a transform write-through").  Returns the updated entity
together with the (in-out) `won` and `loss` flags. -/
def entity_update (dt : ℚ) (plats : List Entity) (e : Entity) (won loss : Bool) :
    Entity × Bool × Bool :=
  if e.entity_type = EntityType.PLAYER then
    let e2 := integrate_player dt e
    let wl := resolveCollisions e2 plats won loss
    (e2, wl.1, wl.2)
  else
    (e, won, loss)

/-- The part of the global state one physics step touches: the player entity
and the two terminal flags. -/
structure SimState where
  player : Entity
  win : Bool
  loss : Bool
deriving DecidableEq, Repr

/-- One fixed physics step: `g_game_state.player->update(FIXED_TIMESTEP,
g_game_state.platforms, PLATFORM_COUNT, g_win, g_loss)` (main.cpp line 319).
The step size is exactly `FIXED_TIMESTEP`. -/
def physicsStep (plats : List Entity) (σ : SimState) : SimState :=
  let r := entity_update FIXED_TIMESTEP plats σ.player σ.win σ.loss
  ⟨r.1, r.2.1, r.2.2⟩

/-- The global game session state of `main.cpp`: the player and platform
entities of `GameState g_game_state`, the terminal flags `g_win` / `g_loss`,
the fixed-timestep leftover `g_time_accumulator`, `g_previous_ticks`,
`g_game_is_running`, and a ghost counter `steps` recording how many fixed
physics steps have been executed (instrumentation only: no source variable
corresponds to it; it lets theorems count steps). -/
structure GameState where
  player : Entity
  platforms : List Entity
  win : Bool
  loss : Bool
  time_accumulator : ℚ
  previous_ticks : ℚ
  game_is_running : Bool
  steps : ℕ
deriving DecidableEq, Repr

/-- `FIXED_TIMESTEP` is positive. -/
theorem FIXED_TIMESTEP_pos : 0 < FIXED_TIMESTEP := by norm_num [FIXED_TIMESTEP]

/-- The `while (delta_time >= FIXED_TIMESTEP)` loop of `game_loop`
(main.cpp lines 316–321): starting from leftover time `t`, repeatedly run one
physics step and subtract `FIXED_TIMESTEP` while `t ≥ FIXED_TIMESTEP`.
Returns the final leftover time, the resulting simulation state, and the
number of iterations executed. -/
def runSteps (plats : List Entity) (t : ℚ) (σ : SimState) : ℚ × SimState × ℕ :=
  if h : FIXED_TIMESTEP ≤ t then
    let r := runSteps plats (t - FIXED_TIMESTEP) (physicsStep plats σ)
    (r.1, r.2.1, r.2.2 + 1)
  else
    (t, σ, 0)
termination_by (⌊t / FIXED_TIMESTEP⌋).toNat
decreasing_by
  have hpos := FIXED_TIMESTEP_pos
  have hne : FIXED_TIMESTEP ≠ 0 := ne_of_gt hpos
  have hdiv : (t - FIXED_TIMESTEP) / FIXED_TIMESTEP = t / FIXED_TIMESTEP - 1 := by
    field_simp
  have hone : (1 : ℚ) ≤ t / FIXED_TIMESTEP := (one_le_div hpos).mpr h
  have hfl : (1 : ℤ) ≤ ⌊t / FIXED_TIMESTEP⌋ := by
    exact_mod_cast Int.le_floor.mpr (by exact_mod_cast hone)
  have : ⌊(t - FIXED_TIMESTEP) / FIXED_TIMESTEP⌋ = ⌊t / FIXED_TIMESTEP⌋ - 1 := by
    rw [hdiv]
    exact_mod_cast Int.floor_sub_int (t / FIXED_TIMESTEP) 1
  rw [this]
  omega

/-- `void game_loop(float delta_time)` (main.cpp lines 302–324): add the
carried accumulator to the frame delta; if the total is below
`FIXED_TIMESTEP`, store it back into the accumulator and return; otherwise
run fixed steps while the total is at least `FIXED_TIMESTEP` and store the
leftover. -/
def game_loop (delta_time : ℚ) (s : GameState) : GameState :=
  let t := delta_time + s.time_accumulator
  if t < FIXED_TIMESTEP then
    { s with time_accumulator := t }
  else
    let r := runSteps s.platforms t ⟨s.player, s.win, s.loss⟩
    { s with player := r.2.1.player, win := r.2.1.win, loss := r.2.1.loss,
             time_accumulator := r.1, steps := s.steps + r.2.2 }

/-- `void update()` (main.cpp lines 326–337): convert the tick count to
seconds, compute the frame delta against `g_previous_ticks`, store the new
ticks, and invoke `game_loop` only when neither terminal flag is set. -/
def update (ticks_ms : ℚ) (s : GameState) : GameState :=
  let ticks := ticks_ms / MILLISECONDS_IN_SECOND
  let delta_time := ticks - s.previous_ticks
  let s1 := { s with previous_ticks := ticks }
  if !s1.win && !s1.loss then game_loop delta_time s1 else s1

/-- Iterating `game_loop` over a list of per-frame wall-clock deltas. -/
def runFrames (ds : List ℚ) (s : GameState) : GameState :=
  ds.foldl (fun s d => game_loop d s) s

/-- The continuous keyboard snapshot `SDL_GetKeyboardState` as read in
`process_input` (main.cpp lines 280–293): the six scancodes the source
queries. -/
structure Keys where
  up : Bool
  w : Bool
  left : Bool
  a : Bool
  right : Bool
  d : Bool
deriving DecidableEq, Repr

/-- The discrete events `process_input` polls (main.cpp lines 255–278):
quit, window close, the `q` key-down, any other key-down, anything else. -/
inductive SDLEvent where
  | quit
  | windowClose
  | keyDownQ
  | keyDownOther
  | other
deriving DecidableEq, Repr

/-- Modelled from the spec: `glm::normalize` divides a vector by its
Euclidean length, which involves an irrational square root and has no exact
rational embedding.  It is modelled as the identity; the claim-C10 theorem
proves the guard `glm::length(movement) > 1` is false after every
`process_input`, so this branch is unreachable and its modelling never
affects a reachable state. -/
def glm_normalize (m : Vec3) : Vec3 := m

/-- The reset-then-chain portion of `process_input` (main.cpp lines 250–293):
movement intent is reset to the zero vector and the booster flag to false,
then the else-if chain maps held keys to intent — up/W sets the booster,
otherwise left/A moves left, otherwise right/D moves right. -/
def input_chain (keys : Keys) (p : Entity) : Entity :=
  let p0 := { p with movement := Vec3.zero, booster_active := false }
  if keys.up || keys.w then
    { p0 with booster_active := true }
  else if keys.left || keys.a then
    move_left p0
  else if keys.right || keys.d then
    move_right p0
  else
    p0

/-- `void process_input()` (main.cpp lines 248–300): reset intent, drain the
event queue (quit / window-close / `q` clear `g_game_is_running`), apply the
keyboard else-if chain, then normalize the movement vector if its length
exceeds 1 (`glm::length(m) > 1` is embedded as the equivalent squared-norm
test `sqNorm m > 1`). -/
def process_input (events : List SDLEvent) (keys : Keys) (s : GameState) : GameState :=
  let running := events.foldl (fun r e =>
    match e with
    | SDLEvent.quit => false
    | SDLEvent.windowClose => false
    | SDLEvent.keyDownQ => false
    | SDLEvent.keyDownOther => r
    | SDLEvent.other => r) s.game_is_running
  let p1 := input_chain keys s.player
  let p2 :=
    if 1 < p1.movement.sqNorm then
      { p1 with movement := glm_normalize p1.movement }
    else
      p1
  { s with player := p2, game_is_running := running }

/-- Modelled from the spec: the default-constructed `Entity` (its constructor
lives in the missing `Entity.cpp`).  Field values not assigned by
`initialise` must satisfy the §3 invariants (width/height > 0); platforms
keep these defaults for every field `initialise` does not set. -/
def default_entity : Entity :=
  { position := Vec3.zero, movement := Vec3.zero, velocity := Vec3.zero,
    acceleration := Vec3.zero, speed := 0, drag := 0, boosting_power := 0,
    width := 1, height := 1, entity_type := EntityType.PLAYER,
    booster_active := false, animation_index := 0, animation_time := 0,
    animation_frames := 1, frame_duration := 1/4, texture_id := 0 }

/-- The player entity as configured by `initialise` (main.cpp lines 196–217):
position (0,3,0), zero movement, gravity acceleration, speed 2, extents
0.8×0.8, boosting power 0.1, drag 0.8, the IDLE single-frame animation
sequence active. -/
def initial_player : Entity :=
  { default_entity with
    position := ⟨0, 3, 0⟩,
    movement := Vec3.zero,
    acceleration := ⟨0, ACC_OF_GRAVITY, 0⟩,
    speed := 2,
    width := 0.8, height := 0.8,
    boosting_power := 0.1, drag := 0.8,
    entity_type := EntityType.PLAYER,
    animation_index := 0, animation_time := 0,
    animation_frames := 1, texture_id := 1 }

/-- One platform as built by the `initialise` loop body (main.cpp lines
225–238) from the two pseudo-random draws of iteration `i`: a coin flip
`rand_bool` choosing WIN over DEATH, and an integer `rand_float` drawn
uniformly from [-3, 1] used as the y-coordinate; the x-coordinate is
`i - 4.0`.  Distinct texture ids stand for the two `load_texture` results. -/
def make_platform (i : ℕ) (draw : Bool × ℤ) : Entity :=
  { default_entity with
    position := ⟨(i : ℚ) - 4, (draw.2 : ℚ), 0⟩,
    entity_type := if draw.1 then EntityType.WIN_PLATFORM else EntityType.DEATH_PLATFORM,
    texture_id := if draw.1 then 2 else 3 }

/-- The platform array built by `initialise` (main.cpp lines 220–238), with
the pseudo-random generator abstracted as the stream `rng` of per-iteration
draws.  Each platform receives the trailing
`update(0.0f, NULL, 0, g_win, g_loss)` call of line 237. -/
def initialise_platforms (rng : ℕ → Bool × ℤ) : List Entity :=
  (List.range PLATFORM_COUNT).map fun i =>
    (entity_update 0 [] (make_platform i (rng i)) false false).1

/-- `void initialise()` (main.cpp lines 166–246) restricted to session state:
the configured player, the randomized platform array, cleared flags and
accumulator.  (`g_previous_ticks` starts at 0, `g_game_is_running` at true.) -/
def initialise (rng : ℕ → Bool × ℤ) : GameState :=
  { player := initial_player,
    platforms := initialise_platforms rng,
    win := false, loss := false,
    time_accumulator := 0, previous_ticks := 0,
    game_is_running := true, steps := 0 }

/-- A decoded image as `stbi_load` would produce it. -/
structure Image where
  width : ℤ
  height : ℤ
  components : ℤ
deriving DecidableEq, Repr

/-- The observable outcome of `load_texture`: either a generated texture id
is returned to the caller, or the process logs a message and aborts via
`assert(false)` — there is no error return value. -/
inductive TexResult where
  | ok (textureID : ℕ)
  | aborted (message : String)
deriving DecidableEq, Repr

/-- `GLuint load_texture(const char* filepath)` (main.cpp lines 139–164):
decode the file at `filepath` (the `stbi_load` call is abstracted as the
`decode` function); if decoding yields no image, log
"Unable to load image. Make sure the path is correct." and abort via
`assert(false)` — modelled as the `aborted` outcome carrying the logged
message; otherwise upload the image and return a fresh texture id. -/
def load_texture (decode : String → Option Image) (filepath : String)
    (nextID : ℕ) : TexResult :=
  match decode filepath with
  | none => TexResult.aborted "Unable to load image. Make sure the path is correct."
  | some _ => TexResult.ok nextID

/-- The number of fixed steps the accumulator loop extracts from a total
accumulated time `t`: the integer part of `t / FIXED_TIMESTEP` (0 for
negative `t`). -/
def nSteps (t : ℚ) : ℕ := (⌊t / FIXED_TIMESTEP⌋).toNat

/-- Below one fixed step of accumulated time, no physics step is extracted. -/
theorem nSteps_of_lt {t : ℚ} (ht : t < FIXED_TIMESTEP) : nSteps t = 0 := by
  have hpos := FIXED_TIMESTEP_pos
  have h1 : t / FIXED_TIMESTEP < 1 := (div_lt_one hpos).mpr ht
  have h2 : ⌊t / FIXED_TIMESTEP⌋ < 1 := Int.floor_lt.mpr (by exact_mod_cast h1)
  unfold nSteps
  omega

/-- At or above one fixed step, the step count decomposes through one
subtraction of `FIXED_TIMESTEP`. -/
theorem nSteps_of_le {t : ℚ} (ht : FIXED_TIMESTEP ≤ t) :
    nSteps t = nSteps (t - FIXED_TIMESTEP) + 1 := by
  have hpos := FIXED_TIMESTEP_pos
  have hne : FIXED_TIMESTEP ≠ 0 := ne_of_gt hpos
  have hdiv : (t - FIXED_TIMESTEP) / FIXED_TIMESTEP = t / FIXED_TIMESTEP - 1 := by
    field_simp
  have hone : (1 : ℚ) ≤ t / FIXED_TIMESTEP := (one_le_div hpos).mpr ht
  have hfl : (1 : ℤ) ≤ ⌊t / FIXED_TIMESTEP⌋ := Int.le_floor.mpr (by exact_mod_cast hone)
  have hsub : ⌊(t - FIXED_TIMESTEP) / FIXED_TIMESTEP⌋ = ⌊t / FIXED_TIMESTEP⌋ - 1 := by
    rw [hdiv]
    exact_mod_cast Int.floor_sub_int (t / FIXED_TIMESTEP) 1
  unfold nSteps
  rw [hsub]
  omega

/-- Closed form of the `while` loop of `game_loop`: from accumulated time
`t`, exactly `nSteps t` physics steps run, the simulation state is the
`nSteps t`-fold iterate of one fixed step, and the leftover time is
`t - FIXED_TIMESTEP * nSteps t`. -/
theorem runSteps_eq_aux (plats : List Entity) :
    ∀ (n : ℕ) (t : ℚ) (σ : SimState), nSteps t = n →
      runSteps plats t σ =
        (t - FIXED_TIMESTEP * n, (physicsStep plats)^[n] σ, n) := by
  intro n
  induction n using Nat.strong_induction_on with
  | _ n ih =>
    intro t σ hn
    rw [runSteps]
    split
    · next h =>
      have hdec := nSteps_of_le h
      have hm : nSteps (t - FIXED_TIMESTEP) = n - 1 := by omega
      have hn1 : 1 ≤ n := by omega
      have := ih (n - 1) (by omega) (t - FIXED_TIMESTEP) (physicsStep plats σ) hm
      rw [this]
      refine Prod.ext ?_ (Prod.ext ?_ ?_)
      · show t - FIXED_TIMESTEP - FIXED_TIMESTEP * ((n - 1 : ℕ) : ℚ) =
          t - FIXED_TIMESTEP * (n : ℚ)
        have : (((n - 1 : ℕ)) : ℚ) = (n : ℚ) - 1 := by
          push_cast [hn1]
          ring
        rw [this]
        ring
      · show (physicsStep plats)^[n - 1] (physicsStep plats σ) =
          (physicsStep plats)^[n] σ
        rw [← Function.iterate_succ_apply]
        congr 1
        omega
      · show (n - 1) + 1 = n
        omega
    · next h =>
      push_neg at h
      have h0 : nSteps t = 0 := nSteps_of_lt h
      have : n = 0 := by omega
      subst this
      simp

/-- `runSteps` in closed form. -/
theorem runSteps_eq (plats : List Entity) (t : ℚ) (σ : SimState) :
    runSteps plats t σ =
      (t - FIXED_TIMESTEP * nSteps t, (physicsStep plats)^[nSteps t] σ, nSteps t) :=
  runSteps_eq_aux plats (nSteps t) t σ rfl

/-- One `game_loop` call in closed form: with total accumulated time
`t = delta_time + accumulator`, exactly `nSteps t` fixed steps run on the
player/flags, the accumulator becomes `t - FIXED_TIMESTEP * nSteps t`, and
everything else is unchanged. -/
theorem game_loop_eq (delta_time : ℚ) (s : GameState) :
    game_loop delta_time s =
      { s with
        player := ((physicsStep s.platforms)^[nSteps (delta_time + s.time_accumulator)]
          ⟨s.player, s.win, s.loss⟩).player,
        win := ((physicsStep s.platforms)^[nSteps (delta_time + s.time_accumulator)]
          ⟨s.player, s.win, s.loss⟩).win,
        loss := ((physicsStep s.platforms)^[nSteps (delta_time + s.time_accumulator)]
          ⟨s.player, s.win, s.loss⟩).loss,
        time_accumulator := (delta_time + s.time_accumulator) -
          FIXED_TIMESTEP * nSteps (delta_time + s.time_accumulator),
        steps := s.steps + nSteps (delta_time + s.time_accumulator) } := by
  simp only [game_loop]
  split
  · next h =>
    rw [nSteps_of_lt h]
    simp
  · next h =>
    rw [runSteps_eq]

/-- The leftover time after extracting `nSteps t` fixed steps from a
non-negative total `t` lies in `[0, FIXED_TIMESTEP)`. -/
theorem leftover_bounds {t : ℚ} (ht : 0 ≤ t) :
    0 ≤ t - FIXED_TIMESTEP * nSteps t ∧
      t - FIXED_TIMESTEP * nSteps t < FIXED_TIMESTEP := by
  have hpos := FIXED_TIMESTEP_pos
  have hne : FIXED_TIMESTEP ≠ 0 := ne_of_gt hpos
  have hfl : 0 ≤ ⌊t / FIXED_TIMESTEP⌋ :=
    Int.floor_nonneg.mpr (div_nonneg ht hpos.le)
  have hcast : ((nSteps t : ℕ) : ℚ) = ((⌊t / FIXED_TIMESTEP⌋ : ℤ) : ℚ) := by
    unfold nSteps
    exact_mod_cast congrArg (fun z => ((z : ℤ) : ℚ)) (Int.toNat_of_nonneg hfl)
  have key : t - FIXED_TIMESTEP * (nSteps t : ℚ) =
      FIXED_TIMESTEP * Int.fract (t / FIXED_TIMESTEP) := by
    rw [hcast, Int.fract]
    field_simp
  constructor
  · rw [key]
    exact mul_nonneg hpos.le (Int.fract_nonneg _)
  · rw [key]
    calc FIXED_TIMESTEP * Int.fract (t / FIXED_TIMESTEP)
        < FIXED_TIMESTEP * 1 := by
          exact mul_lt_mul_of_pos_left (Int.fract_lt_one _) hpos
      _ = FIXED_TIMESTEP := mul_one _

/-- Extracting `m` fixed steps first and then counting the remainder counts
the same as counting on the whole, provided the remainder is non-negative. -/
theorem nSteps_sub_mul (x : ℚ) (m : ℕ)
    (hx : 0 ≤ x - FIXED_TIMESTEP * m) :
    nSteps (x - FIXED_TIMESTEP * m) + m = nSteps x := by
  have hpos := FIXED_TIMESTEP_pos
  have hne : FIXED_TIMESTEP ≠ 0 := ne_of_gt hpos
  have hdiv : (x - FIXED_TIMESTEP * m) / FIXED_TIMESTEP = x / FIXED_TIMESTEP - m := by
    field_simp
  have hfl : ⌊(x - FIXED_TIMESTEP * m) / FIXED_TIMESTEP⌋ = ⌊x / FIXED_TIMESTEP⌋ - m := by
    rw [hdiv]
    have := Int.floor_sub_int (x / FIXED_TIMESTEP) (m : ℤ)
    push_cast at this ⊢
    exact_mod_cast this
  have hnn : 0 ≤ ⌊(x - FIXED_TIMESTEP * m) / FIXED_TIMESTEP⌋ :=
    Int.floor_nonneg.mpr (div_nonneg hx hpos.le)
  unfold nSteps
  rw [hfl] at hnn ⊢
  omega

/-- Iterating `game_loop` over any sequence of non-negative frame deltas,
starting from a state whose accumulator is in `[0, FIXED_TIMESTEP)`, runs
exactly `nSteps (accumulator + total)` fixed physics steps; the final player,
flags, accumulator and step count depend only on `accumulator + total`, not
on how the total is partitioned into frame deltas. -/
theorem runFrames_eq : ∀ (ds : List ℚ) (s : GameState),
    (∀ d ∈ ds, 0 ≤ d) → 0 ≤ s.time_accumulator →
    s.time_accumulator < FIXED_TIMESTEP →
    runFrames ds s =
      { s with
        player := ((physicsStep s.platforms)^[nSteps (s.time_accumulator + ds.sum)]
          ⟨s.player, s.win, s.loss⟩).player,
        win := ((physicsStep s.platforms)^[nSteps (s.time_accumulator + ds.sum)]
          ⟨s.player, s.win, s.loss⟩).win,
        loss := ((physicsStep s.platforms)^[nSteps (s.time_accumulator + ds.sum)]
          ⟨s.player, s.win, s.loss⟩).loss,
        time_accumulator := (s.time_accumulator + ds.sum) -
          FIXED_TIMESTEP * nSteps (s.time_accumulator + ds.sum),
        steps := s.steps + nSteps (s.time_accumulator + ds.sum) } := by
  intro ds
  induction ds with
  | nil =>
    intro s _ h0 h1
    have hz : nSteps s.time_accumulator = 0 := nSteps_of_lt h1
    obtain ⟨p0, plats, w0, l0, acc, tk, run, st⟩ := s
    simp only at hz
    simp [runFrames, hz]
  | cons d rest ih =>
    intro s hd h0 h1
    obtain ⟨p0, plats, w0, l0, acc, tk, run, st⟩ := s
    simp only at h0 h1
    have hdnn : 0 ≤ d := hd d (List.mem_cons_self d rest)
    have hrest : ∀ x ∈ rest, 0 ≤ x := fun x hx => hd x (List.mem_cons_of_mem d hx)
    have htnn : 0 ≤ d + acc := by linarith
    have hRnn : 0 ≤ rest.sum := List.sum_nonneg hrest
    obtain ⟨hl0, hl1⟩ := leftover_bounds (t := d + acc) htnn
    have step2 : game_loop d (GameState.mk p0 plats w0 l0 acc tk run st) =
        GameState.mk
          ((physicsStep plats)^[nSteps (d + acc)] ⟨p0, w0, l0⟩).player plats
          ((physicsStep plats)^[nSteps (d + acc)] ⟨p0, w0, l0⟩).win
          ((physicsStep plats)^[nSteps (d + acc)] ⟨p0, w0, l0⟩).loss
          (d + acc - FIXED_TIMESTEP * (nSteps (d + acc) : ℚ)) tk run
          (st + nSteps (d + acc)) := game_loop_eq d _
    have step3 := ih (GameState.mk
          ((physicsStep plats)^[nSteps (d + acc)] ⟨p0, w0, l0⟩).player plats
          ((physicsStep plats)^[nSteps (d + acc)] ⟨p0, w0, l0⟩).win
          ((physicsStep plats)^[nSteps (d + acc)] ⟨p0, w0, l0⟩).loss
          (d + acc - FIXED_TIMESTEP * (nSteps (d + acc) : ℚ)) tk run
          (st + nSteps (d + acc))) hrest hl0 hl1
    have hfold : runFrames (d :: rest) (GameState.mk p0 plats w0 l0 acc tk run st) =
        runFrames rest (game_loop d (GameState.mk p0 plats w0 l0 acc tk run st)) := rfl
    rw [hfold, step2, step3]
    dsimp only
    have harg : acc + (d :: rest).sum = d + acc + rest.sum := by
      simp only [List.sum_cons]
      ring
    rw [harg]
    have hxarg : d + acc + rest.sum - FIXED_TIMESTEP * (nSteps (d + acc) : ℚ) =
        d + acc - FIXED_TIMESTEP * (nSteps (d + acc) : ℚ) + rest.sum := by ring
    have hx' : 0 ≤ d + acc - FIXED_TIMESTEP * (nSteps (d + acc) : ℚ) + rest.sum := by
      linarith
    have hK := nSteps_sub_mul (d + acc + rest.sum) (nSteps (d + acc))
      (by rw [hxarg]; exact hx')
    rw [hxarg] at hK
    have hiter : (physicsStep plats)^[nSteps
          (d + acc - FIXED_TIMESTEP * (nSteps (d + acc) : ℚ) + rest.sum)]
          ((physicsStep plats)^[nSteps (d + acc)] (⟨p0, w0, l0⟩ : SimState)) =
        (physicsStep plats)^[nSteps (d + acc + rest.sum)] (⟨p0, w0, l0⟩ : SimState) := by
      rw [← Function.iterate_add_apply, hK]
    rw [GameState.mk.injEq]
    refine ⟨?_, rfl, ?_, ?_, ?_, rfl, rfl, ?_⟩
    · exact congrArg SimState.player hiter
    · exact congrArg SimState.win hiter
    · exact congrArg SimState.loss hiter
    · rw [← hK]
      push_cast
      ring
    · omega

/-- Collision resolution only ever sets the terminal flags; it never clears
a flag that is already true. -/
theorem resolveCollisions_mono (p : Entity) : ∀ (plats : List Entity) (w l : Bool),
    (w = true → (resolveCollisions p plats w l).1 = true) ∧
    (l = true → (resolveCollisions p plats w l).2 = true) := by
  intro plats
  induction plats with
  | nil =>
    intro w l
    exact ⟨fun h => h, fun h => h⟩
  | cons q rest ih =>
    intro w l
    constructor
    · intro h
      simp only [resolveCollisions]
      by_cases hc : check_collision p q = true
      · rw [if_pos hc]
        cases hq : q.entity_type <;> simp [h]
      · rw [if_neg hc]
        exact (ih w l).1 h
    · intro h
      simp only [resolveCollisions]
      by_cases hc : check_collision p q = true
      · rw [if_pos hc]
        cases hq : q.entity_type <;> simp [h]
      · rw [if_neg hc]
        exact (ih w l).2 h

/-- One physics step never clears the `win` flag. -/
theorem physicsStep_win_mono (plats : List Entity) (σ : SimState)
    (h : σ.win = true) : (physicsStep plats σ).win = true := by
  simp only [physicsStep, entity_update]
  split
  · exact (resolveCollisions_mono _ plats σ.win σ.loss).1 h
  · exact h

/-- One physics step never clears the `loss` flag. -/
theorem physicsStep_loss_mono (plats : List Entity) (σ : SimState)
    (h : σ.loss = true) : (physicsStep plats σ).loss = true := by
  simp only [physicsStep, entity_update]
  split
  · exact (resolveCollisions_mono _ plats σ.win σ.loss).2 h
  · exact h

/-- Iterated physics steps never clear the `win` flag. -/
theorem iterate_win_mono (plats : List Entity) :
    ∀ (n : ℕ) (σ : SimState), σ.win = true →
      ((physicsStep plats)^[n] σ).win = true := by
  intro n
  induction n with
  | zero => intro σ h; exact h
  | succ n ihn =>
    intro σ h
    rw [Function.iterate_succ_apply]
    exact ihn _ (physicsStep_win_mono plats σ h)

/-- Iterated physics steps never clear the `loss` flag. -/
theorem iterate_loss_mono (plats : List Entity) :
    ∀ (n : ℕ) (σ : SimState), σ.loss = true →
      ((physicsStep plats)^[n] σ).loss = true := by
  intro n
  induction n with
  | zero => intro σ h; exact h
  | succ n ihn =>
    intro σ h
    rw [Function.iterate_succ_apply]
    exact ihn _ (physicsStep_loss_mono plats σ h)

/-- `game_loop` never clears the `win` flag. -/
theorem game_loop_win_mono (dt : ℚ) (s : GameState) (h : s.win = true) :
    (game_loop dt s).win = true := by
  rw [game_loop_eq]
  exact iterate_win_mono s.platforms _ ⟨s.player, s.win, s.loss⟩ h

/-- `game_loop` never clears the `loss` flag. -/
theorem game_loop_loss_mono (dt : ℚ) (s : GameState) (h : s.loss = true) :
    (game_loop dt s).loss = true := by
  rw [game_loop_eq]
  exact iterate_loss_mono s.platforms _ ⟨s.player, s.win, s.loss⟩ h

/-- C2: once either terminal flag `g_win` or `g_loss` is true, every
subsequent call to the per-frame entry point `update` performs zero physics
steps and changes nothing but `g_previous_ticks` — in particular the player
entity, the platform array and both flags are untouched; moreover neither
flag, once set, is ever cleared by `update`, by `game_loop`, or by any
single physics step within a frame. -/
theorem update_terminal_freeze (ticks_ms : ℚ) (s : GameState)
    (hterm : s.win = true ∨ s.loss = true) :
    update ticks_ms s = { s with previous_ticks := ticks_ms / MILLISECONDS_IN_SECOND } ∧
    (update ticks_ms s).steps = s.steps ∧
    (update ticks_ms s).player = s.player ∧
    (update ticks_ms s).platforms = s.platforms ∧
    (update ticks_ms s).win = s.win ∧
    (update ticks_ms s).loss = s.loss ∧
    (∀ (t : ℚ) (s' : GameState), s'.win = true → (update t s').win = true) ∧
    (∀ (t : ℚ) (s' : GameState), s'.loss = true → (update t s').loss = true) ∧
    (∀ (dt : ℚ) (s' : GameState), s'.win = true → (game_loop dt s').win = true) ∧
    (∀ (dt : ℚ) (s' : GameState), s'.loss = true → (game_loop dt s').loss = true) ∧
    (∀ (plats : List Entity) (σ : SimState), σ.win = true →
      (physicsStep plats σ).win = true) ∧
    (∀ (plats : List Entity) (σ : SimState), σ.loss = true →
      (physicsStep plats σ).loss = true) := by
  have hupd : update ticks_ms s =
      { s with previous_ticks := ticks_ms / MILLISECONDS_IN_SECOND } := by
    simp only [update]
    rcases hterm with h | h <;> simp [h]
  refine ⟨hupd, ?_, ?_, ?_, ?_, ?_, ?_, ?_, ?_, ?_, ?_, ?_⟩
  · rw [hupd]
  · rw [hupd]
  · rw [hupd]
  · rw [hupd]
  · rw [hupd]
  · intro t s' hw
    simp only [update]
    by_cases hl : s'.loss = true <;> simp [hw, hl]
  · intro t s' hl
    simp only [update]
    by_cases hw : s'.win = true <;> simp [hw, hl]
  · exact game_loop_win_mono
  · exact game_loop_loss_mono
  · exact physicsStep_win_mono
  · exact physicsStep_loss_mono

/-- C4: if the accumulated time entering `game_loop` (carried accumulator
plus the frame delta) equals exactly `FIXED_TIMESTEP`, then exactly one
physics step runs and the accumulator is zero afterwards. -/
theorem game_loop_single_step (delta_time : ℚ) (s : GameState)
    (h : delta_time + s.time_accumulator = FIXED_TIMESTEP) :
    (game_loop delta_time s).steps = s.steps + 1 ∧
    (game_loop delta_time s).time_accumulator = 0 ∧
    (game_loop delta_time s).player =
      (physicsStep s.platforms ⟨s.player, s.win, s.loss⟩).player := by
  have hn : nSteps (delta_time + s.time_accumulator) = 1 := by
    rw [h]
    unfold nSteps
    rw [div_self (ne_of_gt FIXED_TIMESTEP_pos)]
    simp
  rw [game_loop_eq]
  refine ⟨?_, ?_, ?_⟩
  · simp [hn]
  · rw [hn, h]
    simp
  · simp [hn]

/-- C5: a `game_loop` call with zero frame delta, when the carried
accumulator is below `FIXED_TIMESTEP`, performs zero physics steps and
leaves the whole state — in particular the player and the accumulator —
unchanged. -/
theorem game_loop_zero_delta (s : GameState)
    (hacc : s.time_accumulator < FIXED_TIMESTEP) :
    game_loop 0 s = s ∧ (game_loop 0 s).steps = s.steps := by
  have h : game_loop 0 s = s := by
    simp only [game_loop]
    rw [if_pos (by simpa using hacc)]
    simp
  exact ⟨h, by rw [h]⟩

/-- C9: after any `game_loop` call entered with a non-negative frame delta
and an accumulator in `[0, FIXED_TIMESTEP)`, the accumulator invariant
`0 ≤ g_time_accumulator < FIXED_TIMESTEP` holds again on exit: the leftover
sub-step time carried to the next frame is always strictly below one fixed
step. -/
theorem game_loop_accumulator_invariant (delta_time : ℚ) (s : GameState)
    (hdt : 0 ≤ delta_time) (h0 : 0 ≤ s.time_accumulator)
    (_h1 : s.time_accumulator < FIXED_TIMESTEP) :
    0 ≤ (game_loop delta_time s).time_accumulator ∧
    (game_loop delta_time s).time_accumulator < FIXED_TIMESTEP := by
  rw [game_loop_eq]
  exact leftover_bounds (by linarith)

/-- C1: every physics step invoked by `game_loop` advances the player by
exactly `FIXED_TIMESTEP` (the iterated function is `physicsStep`, the
fixed-size step), and for any two sequences of non-negative per-frame
wall-clock deltas with the same total (same initial state, hence identical
per-step inputs), the same number of physics steps runs and the final game
state — player included — is identical: partitioning elapsed time into
different frame deltas never changes the simulated result. -/
theorem game_loop_partition_independent (s : GameState) (ds1 ds2 : List ℚ)
    (h1 : ∀ d ∈ ds1, 0 ≤ d) (h2 : ∀ d ∈ ds2, 0 ≤ d)
    (hacc0 : 0 ≤ s.time_accumulator) (hacc1 : s.time_accumulator < FIXED_TIMESTEP)
    (hsum : ds1.sum = ds2.sum) :
    runFrames ds1 s = runFrames ds2 s ∧
    (runFrames ds1 s).steps = s.steps + nSteps (s.time_accumulator + ds1.sum) ∧
    (runFrames ds1 s).player =
      ((physicsStep s.platforms)^[nSteps (s.time_accumulator + ds1.sum)]
        ⟨s.player, s.win, s.loss⟩).player := by
  have e1 := runFrames_eq ds1 s h1 hacc0 hacc1
  have e2 := runFrames_eq ds2 s h2 hacc0 hacc1
  refine ⟨?_, ?_, ?_⟩
  · rw [e1, e2, hsum]
  · rw [e1]
  · rw [e1]

/-- C3: when, in a single fixed physics step, the integrated player's
bounding box overlaps both a DEATH_PLATFORM at platform-array index 0 and a
WIN_PLATFORM at index 1, the first platform in array order decides:
`loss` becomes true and `won` stays false; the later WIN platform's result
is not applied (first-match-wins). -/
theorem collision_first_match (σ : SimState) (p0 p1 : Entity) (rest : List Entity)
    (hp : σ.player.entity_type = EntityType.PLAYER)
    (h0 : p0.entity_type = EntityType.DEATH_PLATFORM)
    (_h1 : p1.entity_type = EntityType.WIN_PLATFORM)
    (hov0 : check_collision (integrate_player FIXED_TIMESTEP σ.player) p0 = true)
    (_hov1 : check_collision (integrate_player FIXED_TIMESTEP σ.player) p1 = true)
    (hw : σ.win = false) (_hl : σ.loss = false) :
    (physicsStep (p0 :: p1 :: rest) σ).loss = true ∧
    (physicsStep (p0 :: p1 :: rest) σ).win = false := by
  simp only [physicsStep, entity_update, hp, if_true]
  simp only [resolveCollisions, hov0, if_true, h0]
  simp [hw]

/-- After the reset-then-chain portion of `process_input`, the movement
intent is one of exactly three values: zero, unit-left, unit-right. -/
theorem input_chain_movement (keys : Keys) (p : Entity) :
    (input_chain keys p).movement = Vec3.zero ∨
    (input_chain keys p).movement = ⟨-1, 0, 0⟩ ∨
    (input_chain keys p).movement = ⟨1, 0, 0⟩ := by
  simp only [input_chain]
  by_cases hu : (keys.up || keys.w) = true
  · simp [hu, Vec3.zero]
  · by_cases hlft : (keys.left || keys.a) = true
    · simp [hu, hlft, move_left, Vec3.zero]
    · by_cases hr : (keys.right || keys.d) = true
      · simp [hu, hlft, hr, move_right, Vec3.zero]
      · simp [hu, hlft, hr, Vec3.zero]

/-- The booster flag after the chain is exactly "up or W is held". -/
theorem input_chain_booster (keys : Keys) (p : Entity) :
    (input_chain keys p).booster_active = (keys.up || keys.w) := by
  simp only [input_chain]
  by_cases hu : (keys.up || keys.w) = true
  · simp [hu]
  · by_cases hlft : (keys.left || keys.a) = true
    · simp [hu, hlft, move_left]
    · by_cases hr : (keys.right || keys.d) = true
      · simp [hu, hlft, hr, move_right]
      · simp [hu, hlft, hr]

/-- The normalization guard of `process_input` is never taken, so the player
leaving `process_input` is exactly the player leaving the input chain. -/
theorem process_input_player (events : List SDLEvent) (keys : Keys) (s : GameState) :
    (process_input events keys s).player = input_chain keys s.player := by
  have hle : ¬ (1 < (input_chain keys s.player).movement.sqNorm) := by
    rcases input_chain_movement keys s.player with hm | hm | hm <;>
      rw [hm] <;> norm_num [Vec3.sqNorm, Vec3.zero]
  simp only [process_input]
  rw [if_neg hle]

/-- C6: at the start of every `process_input` call the movement intent is
reset to the zero vector and the booster flag to false; then the else-if
chain makes thrust and lateral steering mutually exclusive per frame: if
up/W is held the booster is set and the movement stays the zero vector even
when left/right keys are held simultaneously, if no relevant key is held
both the movement and the booster stay reset regardless of the previous
frame's intent, and the booster flag afterwards is exactly "up or W held". -/
theorem process_input_exclusive (events : List SDLEvent) (keys : Keys) (s : GameState) :
    (process_input events keys s).player.booster_active = (keys.up || keys.w) ∧
    ((keys.up || keys.w) = true →
      (process_input events keys s).player.movement = Vec3.zero) ∧
    (((keys.up || keys.w) = false ∧ (keys.left || keys.a) = false ∧
        (keys.right || keys.d) = false) →
      (process_input events keys s).player.movement = Vec3.zero ∧
      (process_input events keys s).player.booster_active = false) := by
  rw [process_input_player events keys s]
  refine ⟨input_chain_booster keys s.player, ?_, ?_⟩
  · intro hu
    simp [input_chain, hu]
  · rintro ⟨hu, hlft, hr⟩
    constructor
    · simp [input_chain, hu, hlft, hr]
    · rw [input_chain_booster keys s.player, hu]

/-- C10: after every `process_input` call the player's movement vector is
one of exactly three values — zero, unit-left, or unit-right — its squared
length never exceeds 1, the guard of the diagonal-speed normalization
branch is false, and consequently that branch is dead code: the player
leaving `process_input` is exactly the player leaving the else-if chain. -/
theorem process_input_normalization_dead (events : List SDLEvent) (keys : Keys)
    (s : GameState) :
    ¬ (1 < (input_chain keys s.player).movement.sqNorm) ∧
    (process_input events keys s).player = input_chain keys s.player ∧
    ((process_input events keys s).player.movement = Vec3.zero ∨
     (process_input events keys s).player.movement = ⟨-1, 0, 0⟩ ∨
     (process_input events keys s).player.movement = ⟨1, 0, 0⟩) ∧
    (process_input events keys s).player.movement.sqNorm ≤ 1 := by
  have hp := process_input_player events keys s
  have hm := input_chain_movement keys s.player
  refine ⟨?_, hp, ?_, ?_⟩
  · rcases hm with h | h | h <;> rw [h] <;> norm_num [Vec3.sqNorm, Vec3.zero]
  · rw [hp]
    exact hm
  · rw [hp]
    rcases hm with h | h | h <;> rw [h] <;> norm_num [Vec3.sqNorm, Vec3.zero]

/-- An entity that is not of the PLAYER variant no-ops under `update`. -/
theorem entity_update_platform (dt : ℚ) (plats : List Entity) (e : Entity)
    (w l : Bool) (h : e.entity_type ≠ EntityType.PLAYER) :
    entity_update dt plats e w l = (e, w, l) := by
  simp [entity_update, h]

/-- A generated platform is never of the PLAYER variant. -/
theorem make_platform_not_player (i : ℕ) (draw : Bool × ℤ) :
    (make_platform i draw).entity_type ≠ EntityType.PLAYER := by
  cases hb : draw.1 <;> simp [make_platform, hb]

/-- The generated platform list, elementwise. -/
theorem initialise_platforms_getElem (rng : ℕ → Bool × ℤ) (i : ℕ)
    (hi : i < PLATFORM_COUNT) :
    (initialise_platforms rng)[i]? = some (make_platform i (rng i)) := by
  unfold initialise_platforms
  rw [List.getElem?_map]
  simp [List.getElem?_range, hi,
    entity_update_platform 0 [] (make_platform i (rng i)) false false
      (make_platform_not_player i (rng i))]

/-- C7: exactly `PLATFORM_COUNT` (9) platform entities are created during
initialization, the position and entity type (WIN_PLATFORM/DEATH_PLATFORM)
of the `i`-th platform are exactly determined by the two random draws of
loop iteration `i`, and the platform collection is never modified
afterwards: `game_loop`, `update` and `process_input` all leave the
platform list — hence its length and every element — unchanged. -/
theorem platforms_fixed (rng : ℕ → Bool × ℤ) :
    (initialise_platforms rng).length = PLATFORM_COUNT ∧
    (∀ i, i < PLATFORM_COUNT →
      (initialise_platforms rng)[i]?.map Entity.entity_type =
        some (if (rng i).1 then EntityType.WIN_PLATFORM
              else EntityType.DEATH_PLATFORM) ∧
      (initialise_platforms rng)[i]?.map Entity.position =
        some ⟨(i : ℚ) - 4, ((rng i).2 : ℚ), 0⟩) ∧
    (∀ (dt : ℚ) (s : GameState), (game_loop dt s).platforms = s.platforms) ∧
    (∀ (t : ℚ) (s : GameState), (update t s).platforms = s.platforms) ∧
    (∀ (events : List SDLEvent) (keys : Keys) (s : GameState),
      (process_input events keys s).platforms = s.platforms) := by
  refine ⟨?_, ?_, ?_, ?_, ?_⟩
  · simp [initialise_platforms, PLATFORM_COUNT]
  · intro i hi
    rw [initialise_platforms_getElem rng i hi]
    exact ⟨rfl, rfl⟩
  · intro dt s
    rw [game_loop_eq]
  · intro t s
    simp only [update]
    split
    · rw [game_loop_eq]
    · rfl
  · intro events keys s
    rfl

/-- C8: whenever the image at a file path cannot be loaded or decoded,
`load_texture` logs "Unable to load image. Make sure the path is correct."
and immediately aborts the process via `assert(false)`; there is no retry,
no fallback texture, and no error value is ever returned to the caller —
in particular no `ok` result is produced. -/
theorem load_texture_fail_aborts (decode : String → Option Image)
    (filepath : String) (nextID : ℕ) (h : decode filepath = none) :
    load_texture decode filepath nextID =
      TexResult.aborted "Unable to load image. Make sure the path is correct." ∧
    ∀ tid : ℕ, load_texture decode filepath nextID ≠ TexResult.ok tid := by
  constructor
  · simp [load_texture, h]
  · intro tid
    simp [load_texture, h]

/-- A fixed pseudo-random draw stream for concrete runs. -/
def rngW : ℕ → Bool × ℤ := fun _ => (true, -1)

/-- A concrete freshly-initialised session state. -/
def s0 : GameState := initialise rngW

/-- A concrete terminal session state (the loss flag set). -/
def sTerm : GameState := { s0 with loss := true }

/-- A keyboard snapshot holding up and left simultaneously. -/
def keysUpLeft : Keys := ⟨true, false, true, false, false, false⟩

/-- A concrete player entity resting at the origin with no forces. -/
def playerW : Entity := { default_entity with entity_type := EntityType.PLAYER }

/-- A concrete DEATH_PLATFORM at the origin. -/
def deathW : Entity := make_platform 4 (false, 0)

/-- A concrete WIN_PLATFORM at the origin. -/
def winW : Entity := make_platform 4 (true, 0)

/-- A concrete non-terminal simulation state over `playerW`. -/
def sigW : SimState := ⟨playerW, false, false⟩

/-- A decoder for which every path fails to decode. -/
def decodeW : String → Option Image := fun _ => none

/-- A three-frame partition of 3/100 s. -/
def dsA : List ℚ := [1/100, 1/100, 1/100]

/-- A one-frame partition of the same 3/100 s. -/
def dsB : List ℚ := [3/100]

/-- Witness for C1 at concrete inputs: two different partitions of the same
total time, run from the freshly initialised state, give identical results. -/
theorem game_loop_partition_independent_witness :
    (∀ d ∈ dsA, (0:ℚ) ≤ d) ∧ (∀ d ∈ dsB, (0:ℚ) ≤ d) ∧
    0 ≤ s0.time_accumulator ∧ s0.time_accumulator < FIXED_TIMESTEP ∧
    dsA.sum = dsB.sum ∧
    runFrames dsA s0 = runFrames dsB s0 := by
  have h1 : ∀ d ∈ dsA, (0:ℚ) ≤ d := by norm_num [dsA]
  have h2 : ∀ d ∈ dsB, (0:ℚ) ≤ d := by norm_num [dsB]
  have h3 : (0:ℚ) ≤ s0.time_accumulator := le_refl 0
  have h4 : s0.time_accumulator < FIXED_TIMESTEP := FIXED_TIMESTEP_pos
  have h5 : dsA.sum = dsB.sum := by norm_num [dsA, dsB]
  exact ⟨h1, h2, h3, h4, h5,
    (game_loop_partition_independent s0 dsA dsB h1 h2 h3 h4 h5).1⟩

/-- Witness for C2 at a concrete terminal state. -/
theorem update_terminal_freeze_witness :
    (sTerm.win = true ∨ sTerm.loss = true) ∧
    update 100 sTerm = { sTerm with previous_ticks := 100 / MILLISECONDS_IN_SECOND } := by
  have h : sTerm.win = true ∨ sTerm.loss = true := Or.inr rfl
  exact ⟨h, (update_terminal_freeze 100 sTerm h).1⟩

/-- Witness for C3 at concrete entities: a DEATH then a WIN platform, both
overlapping the player, yield loss and not win. -/
theorem collision_first_match_witness :
    sigW.player.entity_type = EntityType.PLAYER ∧
    deathW.entity_type = EntityType.DEATH_PLATFORM ∧
    winW.entity_type = EntityType.WIN_PLATFORM ∧
    check_collision (integrate_player FIXED_TIMESTEP sigW.player) deathW = true ∧
    check_collision (integrate_player FIXED_TIMESTEP sigW.player) winW = true ∧
    sigW.win = false ∧ sigW.loss = false ∧
    (physicsStep [deathW, winW] sigW).loss = true ∧
    (physicsStep [deathW, winW] sigW).win = false := by
  have hp : sigW.player.entity_type = EntityType.PLAYER := rfl
  have h0 : deathW.entity_type = EntityType.DEATH_PLATFORM := rfl
  have h1 : winW.entity_type = EntityType.WIN_PLATFORM := rfl
  have hov0 : check_collision (integrate_player FIXED_TIMESTEP sigW.player) deathW = true := by
    simp only [check_collision, Bool.and_eq_true, decide_eq_true_eq]
    constructor <;>
      norm_num [integrate_player, animate, sigW, playerW, default_entity, deathW,
        make_platform, Vec3.add, Vec3.scale, Vec3.zero, FIXED_TIMESTEP]
  have hov1 : check_collision (integrate_player FIXED_TIMESTEP sigW.player) winW = true := by
    simp only [check_collision, Bool.and_eq_true, decide_eq_true_eq]
    constructor <;>
      norm_num [integrate_player, animate, sigW, playerW, default_entity, winW,
        make_platform, Vec3.add, Vec3.scale, Vec3.zero, FIXED_TIMESTEP]
  have h := collision_first_match sigW deathW winW [] hp h0 h1 hov0 hov1 rfl rfl
  exact ⟨hp, h0, h1, hov0, hov1, rfl, rfl, h.1, h.2⟩

/-- Witness for C4 at the concrete boundary input. -/
theorem game_loop_single_step_witness :
    FIXED_TIMESTEP + s0.time_accumulator = FIXED_TIMESTEP ∧
    (game_loop FIXED_TIMESTEP s0).steps = s0.steps + 1 ∧
    (game_loop FIXED_TIMESTEP s0).time_accumulator = 0 := by
  have h : FIXED_TIMESTEP + s0.time_accumulator = FIXED_TIMESTEP := add_zero FIXED_TIMESTEP
  obtain ⟨a, b, _⟩ := game_loop_single_step FIXED_TIMESTEP s0 h
  exact ⟨h, a, b⟩

/-- Witness for C5 at the concrete initial state. -/
theorem game_loop_zero_delta_witness :
    s0.time_accumulator < FIXED_TIMESTEP ∧ game_loop 0 s0 = s0 := by
  have h : s0.time_accumulator < FIXED_TIMESTEP := FIXED_TIMESTEP_pos
  exact ⟨h, (game_loop_zero_delta s0 h).1⟩

/-- Witness for C6 at a concrete snapshot holding up and left together:
the booster engages and no lateral movement is applied. -/
theorem process_input_exclusive_witness :
    (keysUpLeft.up || keysUpLeft.w) = true ∧
    (process_input [] keysUpLeft s0).player.booster_active = true ∧
    (process_input [] keysUpLeft s0).player.movement = Vec3.zero := by
  have hu : (keysUpLeft.up || keysUpLeft.w) = true := rfl
  obtain ⟨hb, hm, _⟩ := process_input_exclusive [] keysUpLeft s0
  exact ⟨hu, hb.trans hu, hm hu⟩

/-- Witness for C7 at the concrete draw stream. -/
theorem platforms_fixed_witness :
    0 < PLATFORM_COUNT ∧
    (initialise_platforms rngW)[0]?.map Entity.entity_type =
      some EntityType.WIN_PLATFORM := by
  have h0 : 0 < PLATFORM_COUNT := by decide
  have h := ((platforms_fixed rngW).2.1 0 h0).1
  exact ⟨h0, h.trans rfl⟩

/-- Witness for C8 at a concrete failing decode. -/
theorem load_texture_fail_witness :
    decodeW "assets/ship.png" = none ∧
    load_texture decodeW "assets/ship.png" 7 =
      TexResult.aborted "Unable to load image. Make sure the path is correct." := by
  have h : decodeW "assets/ship.png" = none := rfl
  exact ⟨h, (load_texture_fail_aborts decodeW "assets/ship.png" 7 h).1⟩

/-- Witness for C9 at a concrete frame delta of 1/30 s. -/
theorem game_loop_accumulator_invariant_witness :
    (0:ℚ) ≤ 1/30 ∧ 0 ≤ s0.time_accumulator ∧
    s0.time_accumulator < FIXED_TIMESTEP ∧
    0 ≤ (game_loop (1/30) s0).time_accumulator ∧
    (game_loop (1/30) s0).time_accumulator < FIXED_TIMESTEP := by
  have h1 : (0:ℚ) ≤ 1/30 := by norm_num
  have h2 : (0:ℚ) ≤ s0.time_accumulator := le_refl 0
  have h3 : s0.time_accumulator < FIXED_TIMESTEP := FIXED_TIMESTEP_pos
  obtain ⟨a, b⟩ := game_loop_accumulator_invariant (1/30) s0 h1 h2 h3
  exact ⟨h1, h2, h3, a, b⟩

/-- Witness for C10 at concrete inputs. -/
theorem process_input_normalization_dead_witness :
    ¬ (1 < (input_chain keysUpLeft s0.player).movement.sqNorm) ∧
    (process_input [] keysUpLeft s0).player = input_chain keysUpLeft s0.player ∧
    ((process_input [] keysUpLeft s0).player.movement = Vec3.zero ∨
     (process_input [] keysUpLeft s0).player.movement = ⟨-1, 0, 0⟩ ∨
     (process_input [] keysUpLeft s0).player.movement = ⟨1, 0, 0⟩) ∧
    (process_input [] keysUpLeft s0).player.movement.sqNorm ≤ 1 :=
  process_input_normalization_dead [] keysUpLeft s0

end LunarLander
